import Mathlib

/-!
Shallow embedding of the routing and dispatch core of the ghast HTTP
framework (Go).  Sources embedded here:

* `lib/router.go`    — the `router` struct, `Handle`, `Use`, `UsePath`,
  `ServeHTTP`, `extractRouteParams`;
* `lib/middleware.go` / `middleware.go` — `Middleware`, `ChainMiddleware`
  (the two copies in the repository, `ChainMiddleware` and
  `chainMiddleware`, have the same body, a left fold);
* `lib/middleware.go` — the `Request` struct and its `Param` / `Query`
  accessors;
* `lib/response.go`  — the `responseWriter` struct and its operations;
* the `Ghast` application dispatcher (`Route`, `Use`, `handleRequest`).

Go maps are modelled as association lists with first-match lookup and
insert-or-replace update; a `nil` map is modelled as `Option` where the
distinction matters (`Request.Params`, `Request.Queries`).  Go strings are
modelled as Lean `String`; the paths involved are ASCII so Go's byte
indexing and Lean's character indexing agree.  Side effects of handlers
and middleware (log output etc.) are modelled by an explicit event trace
threaded through a `World` state.
-/

namespace GhastSpec

/-- Go `map[string]V` lookup (`m[k]` with the `ok` flag), on the
association-list model: first entry with the key. -/
def alistGet {β : Type} (l : List (String × β)) (k : String) : Option β :=
  (l.find? (fun p => p.1 == k)).map (fun p => p.2)

/-- Go `map[string]V` assignment `m[k] = v`: replaces the entry if the key
is present, otherwise appends it. -/
def alistPut {β : Type} : List (String × β) → String → β → List (String × β)
  | [], k, v => [(k, v)]
  | (k₂, v₂) :: rest, k, v =>
      if k₂ == k then (k, v) :: rest else (k₂, v₂) :: alistPut rest k v

/-- Go `m[k]` without the `ok` flag: zero value `""` when absent. -/
def alistGetD (l : List (String × String)) (k : String) : String :=
  (alistGet l k).getD ""

/-- The `Request` struct of `lib/middleware.go`.  `Params` and `Queries`
are nil-able Go maps, hence `Option`. -/
structure Request where
  method : String
  path : String
  headers : List (String × String)
  body : String
  version : String
  params : Option (List (String × String))
  queries : Option (List (String × String))
  clientIP : String
  deriving Repr

/-- Source `Request.Query` (`lib/middleware.go`): returns `""` when the `Queries`
map is nil or the key is absent. -/
def Request.Query (r : Request) (key : String) : String :=
  match r.queries with
  | none => ""
  | some qs => alistGetD qs key

/-- Source `Request.Param` (`lib/middleware.go`): returns `""` when the `Params`
map is nil or the key is absent. -/
def Request.Param (r : Request) (key : String) : String :=
  match r.params with
  | none => ""
  | some ps => alistGetD ps key

/-- One write to the underlying connection, as performed by
`responseWriter` in `lib/response.go`: either the status line together
with the header block (`writeStatusAndHeaders`), or body bytes. -/
inductive Chunk where
  | statusAndHeaders (code : Nat) (text : String) (headers : List (String × String))
  | body (data : String)
  deriving Repr, DecidableEq

/-- Modelled from the spec: `httpStatusText` lives in `http_status.go`,
which only appears as a call site in `lib/response.go`; the spec describes
it as a table of standard HTTP status texts.  Only the entries exercised
here are listed. -/
def httpStatusText (code : Nat) : String :=
  match code with
  | 200 => "OK"
  | 201 => "Created"
  | 404 => "Not Found"
  | 500 => "Internal Server Error"
  | _ => ""

/-- The `responseWriter` struct of `lib/response.go`.  `out` is the
sequence of writes made to the connection. -/
structure responseWriter where
  out : List Chunk
  headers : List (String × String)
  statusCode : Nat
  statusText : String
  written : Bool
  deriving Repr

/-- Source `NewResponseWriter` (`lib/response.go`). -/
def NewResponseWriter : responseWriter :=
  { out := [], headers := [], statusCode := 200, statusText := "OK", written := false }

/-- Source `responseWriter.Status`: records the code and text only while the
status line has not been written yet; chainable. -/
def responseWriter.Status (rw : responseWriter) (statusCode : Nat) : responseWriter :=
  if !rw.written then
    { rw with statusCode := statusCode, statusText := httpStatusText statusCode }
  else rw

/-- Source `responseWriter.SetHeader`. -/
def responseWriter.SetHeader (rw : responseWriter) (key value : String) : responseWriter :=
  { rw with headers := alistPut rw.headers key value }

/-- Source `responseWriter.writeStatusAndHeaders`: one write of the status line
plus the header block. -/
def responseWriter.writeStatusAndHeaders (rw : responseWriter) : responseWriter :=
  { rw with out := rw.out ++ [Chunk.statusAndHeaders rw.statusCode rw.statusText rw.headers] }

/-- Source `responseWriter.write`: emits the status line and headers on the first
body write, then appends the body bytes. -/
def responseWriter.write (rw : responseWriter) (data : String) : responseWriter :=
  let rw :=
    if !rw.written then { rw.writeStatusAndHeaders with written := true }
    else rw
  { rw with out := rw.out ++ [Chunk.body data] }

/-- Source `responseWriter.Send` (the returned byte count and error are not
modelled; the Go implementation forwards to `write`). -/
def responseWriter.Send (rw : responseWriter) (data : String) : responseWriter :=
  rw.write data

/-- Source `responseWriter.SendString`. -/
def responseWriter.SendString (rw : responseWriter) (s : String) : responseWriter :=
  rw.write s

/-- Source `responseWriter.JSON`: the marshalled form of the payload is taken as
a string (marshalling itself is out of scope). -/
def responseWriter.JSON (rw : responseWriter) (statusCode : Nat) (jsonData : String) :
    responseWriter :=
  (((rw.Status statusCode).SetHeader ("Content-Type") ("application/json")).write jsonData)

/-- Source `responseWriter.JSONPretty`: same emission structure as `JSON` with an
indented marshalled form. -/
def responseWriter.JSONPretty (rw : responseWriter) (statusCode : Nat) (jsonData : String) :
    responseWriter :=
  (((rw.Status statusCode).SetHeader ("Content-Type") ("application/json")).write jsonData)

/-- The state a Go handler can act on: the response writer, the request
(handlers receive a pointer and may mutate it), and an event trace
standing for external side effects such as log lines. -/
structure World where
  rw : responseWriter
  req : Request
  trace : List String

/-- The `Handler` capability (`handler.go`): anything invocable with
`(ResponseWriter, *Request)`; mutation of both is modelled by returning
the updated `World`. -/
abbrev Handler := World → World

/-- Source `Middleware` (`lib/middleware.go`): a handler-to-handler transform. -/
abbrev Middleware := Handler → Handler

/-- Source `ChainMiddleware` (`lib/middleware.go`): a loop
`for mw in middlewares { handler = mw(handler) }`, i.e. a left fold; the
root-package copy `chainMiddleware` (`middleware.go`) has the same body. -/
def ChainMiddleware (handler : Handler) (middlewares : List Middleware) : Handler :=
  middlewares.foldl (fun h mw => mw h) handler

/-- The `routeParam` struct of `lib/router.go`. -/
structure routeParam where
  name : String
  value : String
  position : Nat
  deriving Repr, DecidableEq

/-- Character-level splitter, equal to Go `strings.Split` with a
one-character separator (`String.splitOn` does not reduce inside the
kernel, so terms built from it could not be evaluated in proofs). -/
def splitChars (sep : Char) : List Char → List (List Char)
  | [] => [[]]
  | c :: rest =>
      match splitChars sep rest with
      | [] => [[]]
      | s :: ss => if c == sep then [] :: s :: ss else (c :: s) :: ss

/-- Go `strings.Split(s, "/")`. -/
def splitOnSlash (s : String) : List String :=
  (splitChars '/' s.toList).map (fun cs => String.mk cs)

/-- Go `strings.HasPrefix`, character-level (`String.startsWith` does not
reduce inside the kernel). -/
def charsHasPre : List Char → List Char → Bool
  | _, [] => true
  | [], _ :: _ => false
  | c :: cs, d :: ds => c == d && charsHasPre cs ds

/-- Go `strings.HasPrefix(s, pre)`. -/
def strHasPre (s pre : String) : Bool :=
  charsHasPre s.toList pre.toList

/-- Source `extractRouteParams` (`lib/router.go`): split the template on `/` and
record, for each segment starting with `:`, its name (the remainder) and
its segment index. -/
def extractRouteParams (path : String) : List routeParam :=
  ((splitOnSlash path).enum).filterMap fun p =>
    if strHasPre p.2 (":") then some { name := p.2.drop 1, value := "", position := p.1 }
    else none

/-- The `router` struct of `lib/router.go`.  `routes` is the nested Go map
method → path → handler. -/
structure router where
  routes : List (String × List (String × Handler))
  routeParams : List (String × List routeParam)
  middlewares : List Middleware
  pathMiddlewares : List (String × List Middleware)

/-- Source `NewRouter` (`lib/router.go`). -/
def NewRouter : router :=
  { routes := [], routeParams := [], middlewares := [], pathMiddlewares := [] }

/-- Source `router.Handle` (`lib/router.go`): records the template's parameters,
wraps the handler in the router middlewares followed by the
path middlewares for that template, and stores it under
`(method, path)`. -/
def router.Handle (r : router) (method path : String) (handler : Handler) : router :=
  let params := extractRouteParams path
  let r := { r with routeParams := alistPut r.routeParams path params }
  let middlwareCollection :=
    r.middlewares ++ ((alistGet r.pathMiddlewares path).getD [])
  let handler := ChainMiddleware handler middlwareCollection
  let methodRoutes := (alistGet r.routes method).getD []
  { r with routes := alistPut r.routes method (alistPut methodRoutes path handler) }

/-- Source `router.Get` (`lib/router.go`). -/
def router.Get (r : router) (path : String) (handler : Handler) : router :=
  r.Handle ("GET") path handler

/-- Source `router.Post` (`lib/router.go`). -/
def router.Post (r : router) (path : String) (handler : Handler) : router :=
  r.Handle ("POST") path handler

/-- Source `router.Use` (`lib/router.go`). -/
def router.Use (r : router) (middleware : Middleware) : router :=
  { r with middlewares := r.middlewares ++ [middleware] }

/-- Source `router.UsePath` (`lib/router.go`). -/
def router.UsePath (r : router) (path : String) (middleware : Middleware) : router :=
  { r with pathMiddlewares :=
      alistPut r.pathMiddlewares path (((alistGet r.pathMiddlewares path).getD []) ++ [middleware]) }

/-- Source `router.ServeHTTP` (`lib/router.go`): exact-match lookup of
`(method, path)`; on a miss, `Status(404)` followed by
`Send("404 Not Found")`.  There is no fall-through to parameterized
matching in the source (left as a TODO there). -/
def router.ServeHTTP (r : router) (w : World) : World :=
  match alistGet r.routes w.req.method with
  | some methodRoutes =>
      match alistGet methodRoutes w.req.path with
      | some handler => handler w
      | none => { w with rw := (w.rw.Status 404).Send ("404 Not Found") }
  | none => { w with rw := (w.rw.Status 404).Send ("404 Not Found") }

/-- A `router` satisfies the `Handler` capability through `ServeHTTP`. -/
def routerHandler (r : router) : Handler :=
  fun w => r.ServeHTTP w

/-- Source `routeGroup`: a mount.  The Go field `prefix` is a reserved
word in Lean and is rendered `pfx`; the Go field `router` is rendered
`rtr`. -/
structure routeGroup where
  pfx : String
  middlewares : List Middleware
  rtr : router

/-- Source `Ghast` struct (application dispatcher): root router, mounted
route groups, global middleware.  The server/config fields play no part in
dispatch and are omitted. -/
structure Ghast where
  rootRouter : router
  routers : List routeGroup
  middlewares : List Middleware

/-- Source `New`. -/
def New : Ghast :=
  { rootRouter := NewRouter, routers := [], middlewares := [] }

/-- Source `Ghast.Route`: mounts a router under a path prefix with
optional mount-scoped middleware. -/
def Ghast.Route (g : Ghast) (pfx : String) (rtr : router)
    (middlewares : List Middleware) : Ghast :=
  { g with routers := g.routers ++ [{ pfx := pfx, middlewares := middlewares, rtr := rtr }] }

/-- Source `Ghast.Use`. -/
def Ghast.Use (g : Ghast) (middleware : Middleware) : Ghast :=
  { g with middlewares := g.middlewares ++ [middleware] }

/-- Go `strings.TrimPrefix(s, pfx)`. -/
def strTrimPre (s pfx : String) : String :=
  if strHasPre s pfx then s.drop pfx.length else s

/-- The per-prefix test of `Ghast.handleRequest`:
`strings.HasPrefix(req.Path, prefix) && (prefix == "/" ||
len(req.Path) == len(prefix) || req.Path[len(prefix)] == '/')`. -/
def mountMatches (path pfx : String) : Bool :=
  strHasPre path pfx &&
    (pfx == "/" || path.length == pfx.length || path.toList.get? pfx.length == some '/')

/-- The length-descending comparison used by the prefix sort. -/
def lenGE (a b : String) : Prop := b.length ≤ a.length

instance : DecidableRel lenGE := fun a b => Nat.decLe b.length a.length

instance : IsTotal String lenGE :=
  ⟨fun a b => Or.symm (Nat.le_total a.length b.length)⟩

instance : IsTrans String lenGE :=
  ⟨fun _ _ _ hab hbc => le_trans hbc hab⟩

/-- The sort of `Ghast.handleRequest`:
`sort.Slice(prefixes, func(i, j int) bool { return len(prefixes[i]) >
len(prefixes[j]) })`.  `sort.Slice` is an unstable sort, so the source
leaves the relative order of equal-length prefixes unspecified;
`insertionSort` by non-increasing length is one admissible refinement. -/
def sortPrefixesDesc (l : List String) : List String :=
  List.insertionSort lenGE l

/-- The mount-selection loop of `Ghast.handleRequest`: walk the sorted
prefixes, take the first one passing the test, and resolve it to the first
route group carrying that prefix. -/
def Ghast.selectMount (g : Ghast) (path : String) : Option routeGroup :=
  match (sortPrefixesDesc (g.routers.map (fun rg => rg.pfx))).find?
      (fun pfx => mountMatches path pfx) with
  | some pfx => g.routers.find? (fun rg => rg.pfx == pfx)
  | none => none

/-- The mount-dispatch half of `Ghast.handleRequest` (the body of
`if matchedRouter != nil`): save the path, strip the prefix unless it is
exactly `/` (collapsing an empty remainder to `/`), dispatch to the
mounted router wrapped in the dispatcher's global middleware, then restore
the path. -/
def Ghast.mountPhase (g : Ghast) (w : World) : World :=
  match g.selectMount w.req.path with
  | none => w
  | some rg =>
      let originalPath := w.req.path
      let w :=
        if rg.pfx == "/" then w
        else
          let p := strTrimPre w.req.path rg.pfx
          let p := if p == "" then "/" else p
          { w with req := { w.req with path := p } }
      let routerWithMiddleware := ChainMiddleware (routerHandler rg.rtr) g.middlewares
      let w := routerWithMiddleware w
      { w with req := { w.req with path := originalPath } }

/-- Source `Ghast.handleRequest`: the mount dispatch, followed
unconditionally by dispatch to the root router wrapped in the global
middleware. -/
def Ghast.handleRequest (g : Ghast) (w : World) : World :=
  let w := g.mountPhase w
  (ChainMiddleware (routerHandler g.rootRouter) g.middlewares) w

/-- The dispatch lookup performed by `router.ServeHTTP`: the
`r.routes[req.Method]` nil check followed by the `[req.Path]` lookup. -/
def router.lookup (r : router) (method path : String) : Option Handler :=
  (alistGet r.routes method).bind (fun methodRoutes => alistGet methodRoutes path)

/-- A handler that only records its invocation, as the test handlers in
`lib/router_test.go` do (`handlerCalled = true`). -/
def traceHandler (label : String) : Handler :=
  fun w => { w with trace := w.trace ++ [label] }

/-- A handler that records the request path it was invoked with, as the
mount-selection test of the spec observes. -/
def recPathHandler (label : String) : Handler :=
  fun w => { w with trace := w.trace ++ [label ++ ":" ++ w.req.path] }

/-- A middleware recording entry and exit around the next handler, the
shape used by `TestMiddlewareChaining` in the repository's tests. -/
def traceMw (label : String) : Middleware :=
  fun next => fun w =>
    let w := next { w with trace := w.trace ++ [label ++ "-before"] }
    { w with trace := w.trace ++ [label ++ "-after"] }

/-- A parsed request as the test files build it: empty header map, a
pre-allocated `Params` map, no query string. -/
def mkRequest (method path : String) : Request :=
  { method := method, path := path, headers := [], body := "",
    version := "HTTP/1.1", params := some [], queries := none, clientIP := "" }

/-- A fresh dispatch state: new response writer, a parsed request, no
events yet. -/
def mkWorld (method path : String) : World :=
  { rw := NewResponseWriter, req := mkRequest method path, trace := [] }

/-- The router of the parameter-extraction scenario
(`TestRouterMultipleParameters`): one parameterized GET template. -/
def paramRouter : router :=
  NewRouter.Get ("/users/:userId/posts/:postId") (traceHandler ("handler"))

/-- The mounts of the longest-prefix scenario: `/api` and `/api/admin`,
each with a handler that records the path it receives. -/
def apiRouter : router := NewRouter.Get ("/stats") (recPathHandler ("api"))

/-- The `/api/admin` router of the longest-prefix scenario. -/
def adminRouter : router := NewRouter.Get ("/stats") (recPathHandler ("admin"))

/-- App with mounts `/api` and `/api/admin` registered. -/
def prefixApp : Ghast :=
  (New.Route ("/api") apiRouter []).Route ("/api/admin") adminRouter []

/-- The route group `prefixApp` holds for `/api/admin`. -/
def adminGroup : routeGroup :=
  { pfx := "/api/admin", middlewares := [], rtr := adminRouter }

/-- App with one global middleware and a mount carrying its own
mount-scoped middleware, to observe which of the two wrap the mounted
router. -/
def mountMwApp : Ghast :=
  (New.Use (traceMw ("global-mw"))).Route ("/api")
    (NewRouter.Get ("/x") (traceHandler ("H"))) [traceMw ("mount-mw")]

/-- App with a mount at `/api` and a root-level route at the same full
path, to observe that both routers run on one request. -/
def doubleApp : Ghast :=
  { New with rootRouter := NewRouter.Get ("/api/x") (traceHandler ("root")) }.Route ("/api")
    (NewRouter.Get ("/x") (traceHandler ("mount"))) []

/-- Router whose `Use`-registered middlewares `M1` then `M2` wrap a traced
handler at registration time, as in claim C2's scenario. -/
def useMwRouter : router :=
  ((NewRouter.Use (traceMw ("M1"))).Use (traceMw ("M2"))).Handle ("GET") ("/x")
    (traceHandler ("H"))

/-- The trace of dispatching through `useMwRouter`'s composed handler. -/
def useMwTrace : List String :=
  (useMwRouter.ServeHTTP (mkWorld ("GET") ("/x"))).trace

/-- The trace produced by the composed handler
`ChainMiddleware(H, [M1, M2])` from a fresh state. -/
def chainTrace : List String :=
  ((ChainMiddleware (traceHandler ("H")) [traceMw ("M1"), traceMw ("M2")])
    (mkWorld ("GET") ("/"))).trace

/-- The public operations of `responseWriter`, for stating invariants over
arbitrary call sequences. -/
inductive WOp where
  | status (statusCode : Nat)
  | setHeader (key value : String)
  | send (data : String)
  | sendString (s : String)
  | json (statusCode : Nat) (jsonData : String)
  | jsonPretty (statusCode : Nat) (jsonData : String)

/-- Interpretation of one `responseWriter` call. -/
def applyWOp (rw : responseWriter) : WOp → responseWriter
  | WOp.status c => rw.Status c
  | WOp.setHeader k v => rw.SetHeader k v
  | WOp.send d => rw.Send d
  | WOp.sendString s => rw.SendString s
  | WOp.json c d => rw.JSON c d
  | WOp.jsonPretty c d => rw.JSONPretty c d

/-- Run a call sequence against a fresh writer, as one connection's
response is produced. -/
def runWOps (ops : List WOp) : responseWriter :=
  ops.foldl applyWOp NewResponseWriter

/-- Number of status-line/header emissions among the connection writes. -/
def headerWrites : List Chunk → Nat
  | [] => 0
  | Chunk.statusAndHeaders _ _ _ :: rest => 1 + headerWrites rest
  | Chunk.body _ :: rest => headerWrites rest

/-- A writer that has already produced its first body write. -/
def writtenWriter : responseWriter :=
  NewResponseWriter.write ("hello")

/-- A request whose `Params` map is nil and whose `Queries` map lacks the
looked-up key, the situation before dispatch. -/
def nilParamsRequest : Request :=
  { mkRequest ("GET") ("/users") with params := none, queries := some [("page", "2")] }

/-!  Theorems.  Helper lemmas come first; each claim is then settled by
one theorem (with a witness where the theorem carries hypotheses). -/

set_option maxRecDepth 8000

/-- Helper: on a list sorted by non-increasing length, `find?` returns an
element at least as long as every element satisfying the predicate. -/
theorem find?_sorted_len_max {p : String → Bool} :
    ∀ {l : List String}, List.Sorted lenGE l → ∀ {x : String}, l.find? p = some x →
      ∀ y ∈ l, p y = true → y.length ≤ x.length := by
  intro l
  induction l with
  | nil => intro _ x hf; cases hf
  | cons a l ih =>
    intro hs x hf y hy hpy
    by_cases hpa : p a = true
    · rw [List.find?_cons_of_pos _ hpa] at hf
      obtain rfl : a = x := by injection hf
      rcases List.mem_cons.mp hy with rfl | hyl
      · exact le_refl _
      · exact List.rel_of_sorted_cons hs y hyl
    · rw [List.find?_cons_of_neg _ hpa] at hf
      rcases List.mem_cons.mp hy with rfl | hyl
      · exact absurd hpy hpa
      · exact ih hs.of_cons hf y hyl hpy

/-- Helper: a successful mount selection returns a group from the mount
list whose prefix passes the per-prefix test and is of maximal length
among the passing prefixes. -/
theorem selectMount_spec (g : Ghast) (path : String) (rg : routeGroup)
    (h : g.selectMount path = some rg) :
    mountMatches path rg.pfx = true ∧ rg ∈ g.routers ∧
      ∀ rg₂ ∈ g.routers, mountMatches path rg₂.pfx = true →
        rg₂.pfx.length ≤ rg.pfx.length := by
  unfold Ghast.selectMount at h
  cases hf : (sortPrefixesDesc (g.routers.map (fun rg => rg.pfx))).find?
      (fun pfx => mountMatches path pfx) with
  | none => rw [hf] at h; dsimp only at h; cases h
  | some p₀ =>
    rw [hf] at h
    dsimp only at h
    have hmem : rg ∈ g.routers := List.mem_of_find?_eq_some h
    have hbeq := List.find?_some h
    have hpfx : rg.pfx = p₀ := by simpa using hbeq
    have hmatch : mountMatches path p₀ = true := List.find?_some hf
    refine ⟨hpfx ▸ hmatch, hmem, ?_⟩
    intro rg₂ h₂ hm₂
    have hsorted : List.Sorted lenGE (sortPrefixesDesc (g.routers.map (fun rg => rg.pfx))) := by
      unfold sortPrefixesDesc
      exact List.sorted_insertionSort lenGE _
    have hmem₂ : rg₂.pfx ∈ sortPrefixesDesc (g.routers.map (fun rg => rg.pfx)) := by
      unfold sortPrefixesDesc
      exact ((List.perm_insertionSort lenGE _).mem_iff).mpr (List.mem_map_of_mem _ h₂)
    have hlen := find?_sorted_len_max hsorted hf rg₂.pfx hmem₂ hm₂
    rw [hpfx]
    exact hlen

/-- Helper: when mount selection fails, no registered mount prefix passes
the per-prefix test. -/
theorem selectMount_none (g : Ghast) (path : String)
    (h : g.selectMount path = none) :
    ∀ rg ∈ g.routers, mountMatches path rg.pfx = false := by
  intro rg hmem
  unfold Ghast.selectMount at h
  cases hf : (sortPrefixesDesc (g.routers.map (fun rg => rg.pfx))).find?
      (fun pfx => mountMatches path pfx) with
  | none =>
    have hmem₂ : rg.pfx ∈ sortPrefixesDesc (g.routers.map (fun rg => rg.pfx)) := by
      unfold sortPrefixesDesc
      exact ((List.perm_insertionSort lenGE _).mem_iff).mpr (List.mem_map_of_mem _ hmem)
    have hx := List.find?_eq_none.mp hf rg.pfx hmem₂
    simpa using hx
  | some p₀ =>
    rw [hf] at h
    dsimp only at h
    have hp₀ : p₀ ∈ sortPrefixesDesc (g.routers.map (fun rg => rg.pfx)) :=
      List.mem_of_find?_eq_some hf
    have hp₀m : p₀ ∈ g.routers.map (fun rg => rg.pfx) := by
      unfold sortPrefixesDesc at hp₀
      exact ((List.perm_insertionSort lenGE _).mem_iff).mp hp₀
    obtain ⟨rg₃, hrg₃, hpfx₃⟩ := List.mem_map.mp hp₀m
    have hx := List.find?_eq_none.mp h rg₃ hrg₃
    simp [hpfx₃] at hx

/-- C9: `Request.Param` and `Request.Query` are total at the public
interface: each returns the empty string whenever the underlying map is
nil or does not contain the key. -/
theorem request_param_query_total (r : Request) (key : String)
    (hp : r.params = none ∨ alistGet (r.params.getD []) key = none)
    (hq : r.queries = none ∨ alistGet (r.queries.getD []) key = none) :
    r.Param key = "" ∧ r.Query key = "" := by
  constructor
  · cases hps : r.params with
    | none => simp [Request.Param, hps]
    | some ps =>
      rcases hp with h | h
      · rw [hps] at h; cases h
      · rw [hps] at h
        simp only [Option.getD] at h
        simp [Request.Param, hps, alistGetD, h]
  · cases hqs : r.queries with
    | none => simp [Request.Query, hqs]
    | some qs =>
      rcases hq with h | h
      · rw [hqs] at h; cases h
      · rw [hqs] at h
        simp only [Option.getD] at h
        simp [Request.Query, hqs, alistGetD, h]

/-- Witness for C9 at a concrete request: nil `Params`, a `Queries` map
without the key. -/
theorem request_param_query_total_witness :
    nilParamsRequest.Param ("userId") = "" ∧ nilParamsRequest.Query ("userId") = "" :=
  request_param_query_total nilParamsRequest ("userId") (Or.inl rfl) (Or.inr rfl)

/-- C8: when `(method, path)` has no registered handler, `ServeHTTP`
returns the state with only a 404 response written — `Status(404)` then
`Send("404 Not Found")`; from a fresh writer the connection output is
exactly the 404 status line plus that plain-text body.  The embedding is
a total function, so no other failure mode exists. -/
theorem serveHTTP_unmatched_404 (r : router) (w : World)
    (h : r.lookup w.req.method w.req.path = none) :
    r.ServeHTTP w = { w with rw := (w.rw.Status 404).Send ("404 Not Found") } ∧
    (w.rw = NewResponseWriter →
      (r.ServeHTTP w).rw.out =
        [Chunk.statusAndHeaders 404 ("Not Found") [], Chunk.body ("404 Not Found")] ∧
      (r.ServeHTTP w).rw.statusCode = 404) := by
  unfold router.lookup at h
  have hmain : r.ServeHTTP w = { w with rw := (w.rw.Status 404).Send ("404 Not Found") } := by
    cases hm : alistGet r.routes w.req.method with
    | none => simp [router.ServeHTTP, hm]
    | some methodRoutes =>
      rw [hm] at h
      simp only [Option.some_bind] at h
      simp [router.ServeHTTP, hm, h]
  refine ⟨hmain, fun hw => ?_⟩
  rw [hmain, hw]
  constructor
  · simp [responseWriter.Status, responseWriter.Send, responseWriter.write,
      responseWriter.writeStatusAndHeaders, NewResponseWriter, httpStatusText]
  · simp [responseWriter.Status, responseWriter.Send, responseWriter.write,
      responseWriter.writeStatusAndHeaders, NewResponseWriter, httpStatusText]

/-- Witness for C8: the empty router on a fresh request writes the 404
response. -/
theorem serveHTTP_unmatched_404_witness :
    NewRouter.lookup ("GET") ("/nonexistent") = none ∧
    NewRouter.ServeHTTP (mkWorld ("GET") ("/nonexistent")) =
      { mkWorld ("GET") ("/nonexistent") with
          rw := ((mkWorld ("GET") ("/nonexistent")).rw.Status 404).Send ("404 Not Found") } :=
  ⟨rfl, (serveHTTP_unmatched_404 NewRouter (mkWorld ("GET") ("/nonexistent")) rfl).1⟩

/-- C1 (failing input): with only the parameterized template
`/users/:userId/posts/:postId` registered for GET, `ServeHTTP` on
`GET /users/456/posts/789` never invokes the handler (the trace stays
empty), leaves `Params` untouched (`Param "userId"` is `""`), and writes
the 404 response — there is no fall-through from the failed exact-match
lookup to compiled-route matching in `lib/router.go`. -/
theorem param_route_falls_to_404 :
    (paramRouter.ServeHTTP (mkWorld ("GET") ("/users/456/posts/789"))).trace = [] ∧
    (paramRouter.ServeHTTP (mkWorld ("GET") ("/users/456/posts/789"))).rw.statusCode = 404 ∧
    (paramRouter.ServeHTTP (mkWorld ("GET") ("/users/456/posts/789"))).rw.out =
      [Chunk.statusAndHeaders 404 ("Not Found") [], Chunk.body ("404 Not Found")] ∧
    (paramRouter.ServeHTTP (mkWorld ("GET") ("/users/456/posts/789"))).req.Param ("userId") = "" ∧
    extractRouteParams ("/users/:userId/posts/:postId") =
      [{ name := "userId", value := "", position := 2 },
       { name := "postId", value := "", position := 4 }] := by
  refine ⟨?_, ?_, ?_, ?_, ?_⟩ <;> rfl

/-- C2 (counterexample): composing `H` with the middleware list
`[M1, M2]` through `ChainMiddleware` does NOT execute in the order
M1-before, M2-before, H, M2-after, M1-after — the first middleware in the
list is not the outermost wrapper. -/
theorem chain_first_not_outermost :
    chainTrace ≠ ["M1-before", "M2-before", "H", "M2-after", "M1-after"] := by
  decide

/-- C2 (amended): `ChainMiddleware` folds so that the LAST middleware in
the list becomes the outermost wrapper: `ChainMiddleware h [m₁, m₂]` is
`m₂ (m₁ h)`, and with `Use`-order M1 then M2 (both directly and through
`router.Handle`'s registration-time wrapping) the side effects run
M2-before, M1-before, H, M1-after, M2-after. -/
theorem chain_last_middleware_outermost :
    (∀ (h : Handler) (m₁ m₂ : Middleware), ChainMiddleware h [m₁, m₂] = m₂ (m₁ h)) ∧
    chainTrace = ["M2-before", "M1-before", "H", "M1-after", "M2-after"] ∧
    useMwTrace = ["M2-before", "M1-before", "H", "M1-after", "M2-after"] :=
  ⟨fun _ _ _ => rfl, rfl, rfl⟩

/-- C5: `handleRequest` always follows the mount phase with a dispatch of
the root router wrapped in the global middleware; concretely, a request
matched by the `/api` mount runs both the mount's handler and the
root-registered handler for the full path. -/
theorem root_router_always_invoked :
    (∀ (g : Ghast) (w : World),
      g.handleRequest w =
        ChainMiddleware (routerHandler g.rootRouter) g.middlewares (g.mountPhase w)) ∧
    (doubleApp.handleRequest (mkWorld ("GET") ("/api/x"))).trace = ["mount", "root"] :=
  ⟨fun _ _ => rfl, rfl⟩

/-- C4: a selected mount prefix passes the per-prefix test (path starts
with it, and it is `/`, or the lengths are equal, or the next character is
`/`); among all passing prefixes a longest one is selected; when none
passes, no mount is selected; with mounts `/api` and `/api/admin`,
`/api/admin/stats` goes to the `/api/admin` mount whose router receives
path `/stats`. -/
theorem longest_mount_selected :
    (∀ (g : Ghast) (path : String) (rg : routeGroup), g.selectMount path = some rg →
      mountMatches path rg.pfx = true ∧ rg ∈ g.routers ∧
        ∀ rg₂ ∈ g.routers, mountMatches path rg₂.pfx = true →
          rg₂.pfx.length ≤ rg.pfx.length) ∧
    (∀ (g : Ghast) (path : String), g.selectMount path = none →
      ∀ rg ∈ g.routers, mountMatches path rg.pfx = false) ∧
    prefixApp.selectMount ("/api/admin/stats") = some adminGroup ∧
    (prefixApp.mountPhase (mkWorld ("GET") ("/api/admin/stats"))).trace = ["admin:/stats"] :=
  ⟨selectMount_spec, selectMount_none, rfl, rfl⟩

/-- Witness for C4: the `/api/admin` group passes the test and belongs to
the mount list of the two-mount app. -/
theorem longest_mount_selected_witness :
    mountMatches ("/api/admin/stats") adminGroup.pfx = true ∧
      adminGroup ∈ prefixApp.routers :=
  ⟨(longest_mount_selected.1 prefixApp ("/api/admin/stats") adminGroup rfl).1,
   (longest_mount_selected.1 prefixApp ("/api/admin/stats") adminGroup rfl).2.1⟩

/-- C6: dispatch through a matched mount with a non-`/` prefix strips the
prefix (collapsing an empty remainder to `/`) before delegating to the
wrapped mounted router, and once the mounted router returns, the
request's path is the original incoming path again. -/
theorem mount_strips_and_restores_path (g : Ghast) (w : World) (rg : routeGroup)
    (hsel : g.selectMount w.req.path = some rg) (hpfx : (rg.pfx == "/") = false) :
    (g.mountPhase w =
      (let p := strTrimPre w.req.path rg.pfx
       let stripped := if p == "" then "/" else p
       let w₂ := ChainMiddleware (routerHandler rg.rtr) g.middlewares
         { w with req := { w.req with path := stripped } }
       { w₂ with req := { w₂.req with path := w.req.path } })) ∧
    (g.mountPhase w).req.path = w.req.path := by
  have h₁ : g.mountPhase w =
      (let p := strTrimPre w.req.path rg.pfx
       let stripped := if p == "" then "/" else p
       let w₂ := ChainMiddleware (routerHandler rg.rtr) g.middlewares
         { w with req := { w.req with path := stripped } }
       { w₂ with req := { w₂.req with path := w.req.path } }) := by
    unfold Ghast.mountPhase
    rw [hsel]
    simp [hpfx]
  refine ⟨h₁, ?_⟩
  rw [h₁]

/-- Witness for C6: the `/api/admin` mount of the two-mount app restores
the original path. -/
theorem mount_strips_and_restores_path_witness :
    (prefixApp.mountPhase (mkWorld ("GET") ("/api/admin/stats"))).req.path =
      (mkWorld ("GET") ("/api/admin/stats")).req.path :=
  (mount_strips_and_restores_path prefixApp (mkWorld ("GET") ("/api/admin/stats"))
    adminGroup rfl rfl).2

/-- C7: with the exact template `/users/me` and the parameterized
template `/users/:id` both registered for GET — in either registration
order — a GET to `/users/me` invokes the exact-match handler, never the
parameterized one. -/
theorem exact_match_precedence (hE hP : Handler) (w : World)
    (hm : w.req.method = "GET") (hp : w.req.path = "/users/me") :
    ((NewRouter.Get ("/users/me") hE).Get ("/users/:id") hP).ServeHTTP w = hE w ∧
    ((NewRouter.Get ("/users/:id") hP).Get ("/users/me") hE).ServeHTTP w = hE w := by
  obtain ⟨rw, req, tr⟩ := w
  obtain ⟨m, p, hs, b, v, ps, qs, ip⟩ := req
  simp only at hm hp
  subst hm
  subst hp
  exact ⟨rfl, rfl⟩

/-- Witness for C7: concrete exact and parameterized trace handlers on a
fresh GET `/users/me` request. -/
theorem exact_match_precedence_witness :
    ((NewRouter.Get ("/users/me") (traceHandler ("exact"))).Get ("/users/:id")
        (traceHandler ("param"))).ServeHTTP (mkWorld ("GET") ("/users/me")) =
      traceHandler ("exact") (mkWorld ("GET") ("/users/me")) :=
  (exact_match_precedence (traceHandler ("exact")) (traceHandler ("param"))
    (mkWorld ("GET") ("/users/me")) rfl rfl).1

/-- C3 (failing input): on a request matched by a mount carrying its own
middleware, `handleRequest` wraps the mounted router in the dispatcher's
global middleware only — the mount's middleware never runs (the stored
`routeGroup.middlewares` are not consulted), contradicting `Route`'s own
doc comment. -/
theorem mount_middleware_not_applied :
    (mountMwApp.handleRequest (mkWorld ("GET") ("/api/x"))).trace =
      ["global-mw-before", "H", "global-mw-after", "global-mw-before", "global-mw-after"] ∧
    "mount-mw-before" ∉ (mountMwApp.handleRequest (mkWorld ("GET") ("/api/x"))).trace := by
  refine ⟨rfl, ?_⟩
  decide

/-- Helper: `headerWrites` adds up over concatenated output. -/
theorem headerWrites_append (a b : List Chunk) :
    headerWrites (a ++ b) = headerWrites a + headerWrites b := by
  induction a with
  | nil => simp [headerWrites]
  | cons c rest ih =>
    cases c with
    | statusAndHeaders code text hs =>
      simp [headerWrites, ih]
      omega
    | body d => simp [headerWrites, ih]

/-- Helper: `Status` never touches the connection output. -/
theorem Status_out (rw : responseWriter) (c : Nat) : (rw.Status c).out = rw.out := by
  unfold responseWriter.Status
  split <;> rfl

/-- Helper: `Status` never changes the written flag. -/
theorem Status_written (rw : responseWriter) (c : Nat) :
    (rw.Status c).written = rw.written := by
  unfold responseWriter.Status
  split <;> rfl

/-- Helper: one `write` keeps the header-emission invariant: an unwritten
writer has emitted nothing, and no writer emits twice. -/
theorem write_header_inv (rw : responseWriter) (d : String)
    (h₀ : rw.written = false → headerWrites rw.out = 0)
    (h₁ : headerWrites rw.out ≤ 1) :
    ((rw.write d).written = false → headerWrites (rw.write d).out = 0) ∧
      headerWrites (rw.write d).out ≤ 1 := by
  cases hw : rw.written with
  | false =>
    constructor
    · intro hfalse
      simp [responseWriter.write, responseWriter.writeStatusAndHeaders, hw] at hfalse
    · simp [responseWriter.write, responseWriter.writeStatusAndHeaders, hw,
        headerWrites_append, headerWrites, h₀ hw]
  | true =>
    constructor
    · intro hfalse
      simp [responseWriter.write, hw] at hfalse
    · simp only [responseWriter.write, hw, Bool.not_true, Bool.false_eq_true, if_neg,
        ite_false, headerWrites_append]
      simpa [headerWrites] using h₁

/-- Helper: every public `responseWriter` call keeps the header-emission
invariant. -/
theorem applyWOp_header_inv (rw : responseWriter) (op : WOp)
    (h₀ : rw.written = false → headerWrites rw.out = 0)
    (h₁ : headerWrites rw.out ≤ 1) :
    ((applyWOp rw op).written = false → headerWrites (applyWOp rw op).out = 0) ∧
      headerWrites (applyWOp rw op).out ≤ 1 := by
  cases op with
  | status c =>
    refine ⟨fun hf => ?_, ?_⟩
    · rw [applyWOp, Status_out]
      rw [applyWOp, Status_written] at hf
      exact h₀ hf
    · rw [applyWOp, Status_out]
      exact h₁
  | setHeader k v =>
    refine ⟨fun hf => ?_, ?_⟩
    · exact h₀ hf
    · exact h₁
  | send d => exact write_header_inv rw d h₀ h₁
  | sendString d => exact write_header_inv rw d h₀ h₁
  | json c d =>
    have h := write_header_inv ((rw.Status c).SetHeader ("Content-Type") ("application/json")) d
      (by intro hf
          rw [responseWriter.SetHeader] at hf ⊢
          simp only [Status_written] at hf
          simp only [Status_out]
          exact h₀ hf)
      (by rw [responseWriter.SetHeader]
          simp only [Status_out]
          exact h₁)
    exact h
  | jsonPretty c d =>
    have h := write_header_inv ((rw.Status c).SetHeader ("Content-Type") ("application/json")) d
      (by intro hf
          rw [responseWriter.SetHeader] at hf ⊢
          simp only [Status_written] at hf
          simp only [Status_out]
          exact h₀ hf)
      (by rw [responseWriter.SetHeader]
          simp only [Status_out]
          exact h₁)
    exact h

/-- Helper: running any call sequence from an invariant-satisfying state
emits at most one status line. -/
theorem foldWOps_header_inv (ops : List WOp) (rw : responseWriter)
    (h₀ : rw.written = false → headerWrites rw.out = 0)
    (h₁ : headerWrites rw.out ≤ 1) :
    headerWrites ((ops.foldl applyWOp rw).out) ≤ 1 := by
  induction ops generalizing rw with
  | nil => simpa using h₁
  | cons op rest ih =>
    have h := applyWOp_header_inv rw op h₀ h₁
    simpa using ih (applyWOp rw op) h.1 h.2

/-- C10: across any sequence of `responseWriter` calls on one response,
the status line and headers reach the connection at most once; the first
body write emits them and sets the written flag; once written, `Status`
leaves the status code and text unchanged and every further write only
appends body bytes. -/
theorem response_head_written_once :
    (∀ ops : List WOp, headerWrites (runWOps ops).out ≤ 1) ∧
    (∀ (rw : responseWriter) (c : Nat), rw.written = true →
      (rw.Status c).statusCode = rw.statusCode ∧ (rw.Status c).statusText = rw.statusText) ∧
    (∀ (rw : responseWriter) (d : String), rw.written = true →
      rw.write d = { rw with out := rw.out ++ [Chunk.body d] }) ∧
    (∀ (s : responseWriter) (d : String), s.written = false →
      s.write d = { s with written := true, out := s.out ++ [Chunk.statusAndHeaders s.statusCode s.statusText s.headers, Chunk.body d] }) := by
  refine ⟨?_, ?_, ?_, ?_⟩
  · intro ops
    exact foldWOps_header_inv ops NewResponseWriter (fun _ => rfl)
      (by simp [NewResponseWriter, headerWrites])
  · intro rw c h
    constructor <;> simp [responseWriter.Status, h]
  · intro rw d h
    simp [responseWriter.write, h]
  · intro rw d h
    simp [responseWriter.write, responseWriter.writeStatusAndHeaders, h]

/-- Witness for C10: a writer past its first body write keeps its status
on a later `Status` call, and a later write only appends body bytes. -/
theorem response_head_written_once_witness :
    writtenWriter.written = true ∧
    ((writtenWriter.Status 500).statusCode = writtenWriter.statusCode ∧
      (writtenWriter.Status 500).statusText = writtenWriter.statusText) ∧
    writtenWriter.write ("again") =
      { writtenWriter with out := writtenWriter.out ++ [Chunk.body ("again")] } :=
  ⟨rfl, response_head_written_once.2.1 writtenWriter 500 rfl,
    response_head_written_once.2.2.1 writtenWriter ("again") rfl⟩

end GhastSpec
